import Mathlib

/-!
# Verification of the simple-swap amount-sync controller

A shallow embedding of the core logic of the `mrruby/simple-swap`
repository: the decimal-string / fixed-point conversion helpers
(`src/lib/utils.ts`), the liquidity simulation plumbing
(`src/lib/liquidity.ts`, `src/hooks/useSimulateLiquidity.ts`), the
liquidity form controller (`src/hooks/useTonConnect.ts`,
`src/hooks/useProvideLiquidity.ts`), the swap form controller
(`src/hooks/useSimpleSwap.ts`) and the swap status polling loop
(`useSwapStatusQuery`).

JavaScript strings are modelled as Lean `String` / `List Char`,
JavaScript `BigInt` as `Int` (with `Option` capturing the `SyntaxError`
that `BigInt(string)` can throw), and JavaScript truthiness of optional
strings as "present and non-empty".
-/

/-! ## JavaScript string primitives -/

/-- Numeric value of a digit string, most significant digit first
(`digitsVal ['4','2'] = 42`).  This is how `BigInt` reads a digit
string. -/
def digitsVal (l : List Char) : Nat :=
  l.foldl (fun acc c => acc * 10 + (c.toNat - 48)) 0

/-- Model of JavaScript `String.prototype.split(sep)` for a single-character
separator: `splitOnChar '.' "a.b".data = [['a'],['b']]`.  Like in JS, the
result is always non-empty and `splitOnChar c [] = [[]]`. -/
def splitOnChar (c : Char) : List Char → List (List Char)
  | [] => [[]]
  | x :: xs =>
    match splitOnChar c xs with
    | [] => [[x]]
    | h :: t => if x = c then [] :: h :: t else (x :: h) :: t

/-- Model of `String.prototype.padEnd(n, c)` on char lists. -/
def padEndList (l : List Char) (n : Nat) (c : Char) : List Char :=
  l ++ List.replicate (n - l.length) c

/-- Model of `String.prototype.padStart(n, c)` on char lists. -/
def padStartList (l : List Char) (n : Nat) (c : Char) : List Char :=
  List.replicate (n - l.length) c ++ l

/-- Model of `.replace(/0+$/, "")`: drop the trailing `'0'` characters. -/
def dropTrailingZerosList (l : List Char) : List Char :=
  (l.reverse.dropWhile (· = '0')).reverse

/-- Strip one leading `'-'` sign, reporting whether it was present. -/
def stripNeg (l : List Char) : Bool × List Char :=
  match l with
  | c :: rest => if c = '-' then (true, rest) else (false, l)
  | [] => (false, [])

/-- Model of JavaScript `BigInt(string)` restricted to the decimal forms the
repository ever passes (an optional `'-'` sign followed by decimal digits):
`BigInt("") = 0`, `BigInt("-")` throws (`none`), and hexadecimal or
exponent forms are not modelled because no caller produces them. -/
def jsBigIntList (l : List Char) : Option Int :=
  if l.all Char.isDigit then some ((digitsVal l : Nat) : Int)
  else
    match l with
    | c :: rest =>
      if c = '-' ∧ rest ≠ [] ∧ rest.all Char.isDigit then
        some (-((digitsVal rest : Nat) : Int))
      else none
    | [] => none

/-- Decimal digit list of a natural number, by repeated division; `fuel`
bounds the recursion and any `fuel > n` computes the digits of `n`
(most significant first, no leading zeros, `[]` for `0`). -/
def natToDigitsAux : Nat → Nat → List Char
  | 0, _ => []
  | fuel + 1, n =>
    if n = 0 then []
    else natToDigitsAux fuel (n / 10) ++ [Char.ofNat (48 + n % 10)]

/-- Decimal digit list of a natural number, `['0']` for zero: the model of
JavaScript `BigInt.prototype.toString()` for non-negative values. -/
def natToDigitsTop (n : Nat) : List Char :=
  if n = 0 then ['0'] else natToDigitsAux (n + 1) n

/-- Model of JavaScript `BigInt.prototype.toString()` (base 10). -/
def intToDigits (i : Int) : List Char :=
  (if i < 0 then ['-'] else []) ++ natToDigitsTop i.natAbs

/-- `BigInt.prototype.toString()` as a Lean `String`. -/
def bigIntToString (i : Int) : String :=
  String.mk (intToDigits i)

/-! ### Arithmetic facts about the primitives -/

theorem digitsVal_go (l : List Char) (acc : Nat) :
    l.foldl (fun acc c => acc * 10 + (c.toNat - 48)) acc
      = acc * 10 ^ l.length + digitsVal l := by
  induction l generalizing acc with
  | nil => simp [digitsVal]
  | cons c cs ih =>
    simp only [List.foldl_cons, List.length_cons, digitsVal] at *
    rw [ih, ih (0 * 10 + (c.toNat - 48))]
    ring

theorem digitsVal_append (a b : List Char) :
    digitsVal (a ++ b) = digitsVal a * 10 ^ b.length + digitsVal b := by
  unfold digitsVal
  rw [List.foldl_append, digitsVal_go]
  rfl

theorem digitsVal_nil : digitsVal [] = 0 := rfl

theorem digitsVal_replicate_zero (n : Nat) :
    digitsVal (List.replicate n '0') = 0 := by
  induction n with
  | zero => rfl
  | succ k ih =>
    rw [List.replicate_succ, show ('0' :: List.replicate k '0')
        = ['0'] ++ List.replicate k '0' from rfl, digitsVal_append, ih]
    simp [digitsVal]

theorem digitsVal_all_zero {l : List Char} (h : ∀ x ∈ l, x = '0') :
    digitsVal l = 0 := by
  have : l = List.replicate l.length '0' := List.eq_replicate_iff.mpr ⟨rfl, h⟩
  rw [this, digitsVal_replicate_zero]

theorem isDigit_toNat {c : Char} (h : c.isDigit = true) :
    48 ≤ c.toNat ∧ c.toNat ≤ 57 := by
  simpa [Char.isDigit] using h

theorem digitsVal_cons (c : Char) (cs : List Char) :
    digitsVal (c :: cs) = (c.toNat - 48) * 10 ^ cs.length + digitsVal cs := by
  have h := digitsVal_append [c] cs
  have h1 : digitsVal [c] = c.toNat - 48 := by simp [digitsVal]
  rw [h1] at h
  simpa using h

theorem digitsVal_lt (l : List Char) (h : l.all Char.isDigit) :
    digitsVal l < 10 ^ l.length := by
  induction l with
  | nil => simp [digitsVal]
  | cons c cs ih =>
    simp only [List.all_cons, Bool.and_eq_true] at h
    have hc : c.toNat - 48 ≤ 9 := by
      have := (isDigit_toNat h.1).2
      omega
    have hcs := ih h.2
    rw [digitsVal_cons]
    simp only [List.length_cons, pow_succ]
    nlinarith [pow_pos (show 0 < 10 by norm_num) cs.length]

theorem natToDigitsAux_spec (fuel : Nat) :
    ∀ n < fuel, (natToDigitsAux fuel n).all Char.isDigit = true ∧
      digitsVal (natToDigitsAux fuel n) = n ∧
      ∀ k, n < 10 ^ k → (natToDigitsAux fuel n).length ≤ k := by
  induction fuel with
  | zero => intro n h; omega
  | succ f ih =>
    intro n hn
    by_cases h0 : n = 0
    · subst h0
      simp [natToDigitsAux, digitsVal]
    · have hdiv : n / 10 < f := by
        have h1 : n / 10 < n := Nat.div_lt_self (by omega) (by norm_num)
        omega
      obtain ⟨ha, hv, hl⟩ := ih (n / 10) hdiv
      have hmod : n % 10 < 10 := Nat.mod_lt _ (by norm_num)
      have hchar : (Char.ofNat (48 + n % 10)).isDigit = true ∧
          (Char.ofNat (48 + n % 10)).toNat = 48 + n % 10 := by
        interval_cases h : n % 10 <;> simp_all
      refine ⟨?_, ?_, ?_⟩
      · simp only [natToDigitsAux, if_neg h0, List.all_append, ha, List.all_cons,
          List.all_nil, Bool.and_true, Bool.true_and, hchar.1]
      · simp only [natToDigitsAux, if_neg h0]
        rw [digitsVal_append, hv]
        have : digitsVal [Char.ofNat (48 + n % 10)] = n % 10 := by
          simp [digitsVal, hchar.2]
        rw [this]
        simp only [List.length_cons, List.length_nil, pow_one]
        omega
      · intro k hk
        have hkpos : 1 ≤ k := by
          by_contra hcon
          have : k = 0 := by omega
          subst this
          simp at hk
          omega
        obtain ⟨k', rfl⟩ : ∃ k', k = k' + 1 := ⟨k - 1, by omega⟩
        have : n / 10 < 10 ^ k' := by
          rw [Nat.div_lt_iff_lt_mul (by norm_num)]
          calc n < 10 ^ (k' + 1) := hk
            _ = 10 ^ k' * 10 := by ring
        have := hl k' this
        simp only [natToDigitsAux, if_neg h0, List.length_append,
          List.length_cons, List.length_nil]
        omega

theorem natToDigitsTop_spec (n : Nat) :
    (natToDigitsTop n).all Char.isDigit = true ∧
    natToDigitsTop n ≠ [] ∧
    digitsVal (natToDigitsTop n) = n ∧
    ∀ k, 1 ≤ k → n < 10 ^ k → (natToDigitsTop n).length ≤ k := by
  by_cases h0 : n = 0
  · subst h0
    refine ⟨by decide, by decide, by decide, ?_⟩
    intro k hk _
    simpa [natToDigitsTop] using hk
  · obtain ⟨ha, hv, hl⟩ := natToDigitsAux_spec (n + 1) n (by omega)
    refine ⟨by simpa [natToDigitsTop, h0] using ha, ?_, by simpa [natToDigitsTop, h0] using hv, ?_⟩
    · simp only [natToDigitsTop, if_neg h0]
      intro hnil
      have := hv
      rw [hnil] at this
      simp [digitsVal] at this
      omega
    · intro k _ hk
      simpa [natToDigitsTop, h0] using hl k hk

theorem digit_ne_dash {c : Char} (h : c.isDigit = true) : ¬ c = '-' := by
  intro hc
  subst hc
  simp [Char.isDigit] at h

theorem digit_ne_dot {c : Char} (h : c.isDigit = true) : ¬ c = '.' := by
  intro hc
  subst hc
  simp [Char.isDigit] at h

theorem stripNeg_of_digits {l : List Char} (h : l.all Char.isDigit = true) :
    stripNeg l = (false, l) := by
  cases l with
  | nil => rfl
  | cons c cs =>
    simp only [List.all_cons, Bool.and_eq_true] at h
    simp [stripNeg, digit_ne_dash h.1]

theorem jsBigIntList_of_digits {l : List Char} (h : l.all Char.isDigit = true) :
    jsBigIntList l = some ((digitsVal l : Nat) : Int) := by
  simp [jsBigIntList, h]

theorem splitOnChar_ne_nil (c : Char) (l : List Char) : splitOnChar c l ≠ [] := by
  induction l with
  | nil => simp [splitOnChar]
  | cons x xs ih =>
    simp only [splitOnChar]
    cases h : splitOnChar c xs with
    | nil => simp
    | cons hd tl => by_cases hx : x = c <;> simp [hx]

theorem splitOnChar_no_sep {c : Char} {l : List Char} (h : c ∉ l) :
    splitOnChar c l = [l] := by
  induction l with
  | nil => rfl
  | cons x xs ih =>
    have hx : ¬ x = c := by
      intro e
      exact h (e ▸ List.mem_cons_self x xs)
    have hxs : c ∉ xs := fun m => h (List.mem_cons_of_mem _ m)
    simp only [splitOnChar, ih hxs]
    simp [hx]

theorem splitOnChar_append_sep {c : Char} {i : List Char} (f : List Char)
    (hi : c ∉ i) : splitOnChar c (i ++ c :: f) = i :: splitOnChar c f := by
  induction i with
  | nil =>
    simp only [List.nil_append, splitOnChar]
    cases h : splitOnChar c f with
    | nil => exact absurd h (splitOnChar_ne_nil c f)
    | cons hd tl => simp
  | cons x xs ih =>
    have hx : ¬ x = c := by
      intro e
      exact hi (e ▸ List.mem_cons_self x xs)
    have hxs : c ∉ xs := fun m => hi (List.mem_cons_of_mem _ m)
    rw [List.cons_append, splitOnChar, ih hxs]
    simp [hx]

theorem splitOnChar_two {c : Char} {i f : List Char} (hi : c ∉ i) (hf : c ∉ f) :
    splitOnChar c (i ++ c :: f) = [i, f] := by
  rw [splitOnChar_append_sep f hi, splitOnChar_no_sep hf]

theorem not_dot_of_digits {l : List Char} (h : l.all Char.isDigit = true) :
    '.' ∉ l := by
  intro hm
  exact digit_ne_dot (List.all_eq_true.mp h '.' hm) rfl

theorem padTrunc_length (f : List Char) (d : Nat) :
    ((padEndList f d '0').take d).length = d := by
  simp only [padEndList, List.length_take, List.length_append, List.length_replicate]
  omega

theorem padTrunc_all {f : List Char} (d : Nat) (h : f.all Char.isDigit = true) :
    ((padEndList f d '0').take d).all Char.isDigit = true := by
  have hall : (padEndList f d '0').all Char.isDigit = true := by
    simp only [padEndList, List.all_append, h, Bool.true_and]
    simp [List.all_eq_true]
  rw [List.all_eq_true] at hall ⊢
  exact fun x hx => hall x (List.mem_of_mem_take hx)

theorem padTrunc_val (f : List Char) (d : Nat) :
    digitsVal ((padEndList f d '0').take d)
      = digitsVal (f.take d) * 10 ^ (d - min d f.length) := by
  by_cases h : d ≤ f.length
  · have h1 : padEndList f d '0' = f := by
      simp [padEndList, Nat.sub_eq_zero_of_le h]
    rw [h1, Nat.min_eq_left h, Nat.sub_self, pow_zero, Nat.mul_one]
  · push_neg at h
    have h1 : (padEndList f d '0').length = d := by
      simp only [padEndList, List.length_append, List.length_replicate]
      omega
    have h2 : (padEndList f d '0').take d = padEndList f d '0' := by
      apply List.take_of_length_le
      omega
    have h3 : f.take d = f := List.take_of_length_le (by omega)
    rw [h2, h3, padEndList, digitsVal_append, digitsVal_replicate_zero,
      List.length_replicate, Nat.min_eq_right (by omega), Nat.add_zero]

theorem padStart_length {l : List Char} {n : Nat} (h : l.length ≤ n) (c : Char) :
    (padStartList l n c).length = n := by
  simp only [padStartList, List.length_append, List.length_replicate]
  omega

theorem padStart_val (l : List Char) (n : Nat) :
    digitsVal (padStartList l n '0') = digitsVal l := by
  rw [padStartList, digitsVal_append, digitsVal_replicate_zero]
  ring

theorem padStart_all {l : List Char} (n : Nat) (h : l.all Char.isDigit = true) :
    (padStartList l n '0').all Char.isDigit = true := by
  simp only [padStartList, List.all_append, h, Bool.and_true]
  simp [List.all_eq_true]

theorem dropTrailingZeros_decomp (l : List Char) :
    ∃ k, l = dropTrailingZerosList l ++ List.replicate k '0' := by
  refine ⟨(l.reverse.takeWhile (· = '0')).length, ?_⟩
  have h1 : l.reverse.takeWhile (· = '0')
      = List.replicate (l.reverse.takeWhile (· = '0')).length '0' := by
    apply List.eq_replicate_iff.mpr
    refine ⟨rfl, fun b hb => ?_⟩
    have := List.mem_takeWhile_imp hb
    simpa using this
  calc l = l.reverse.reverse := (List.reverse_reverse l).symm
    _ = (l.reverse.takeWhile (· = '0') ++ l.reverse.dropWhile (· = '0')).reverse := by
        rw [List.takeWhile_append_dropWhile]
    _ = (l.reverse.dropWhile (· = '0')).reverse
          ++ (l.reverse.takeWhile (· = '0')).reverse := by
        rw [List.reverse_append]
    _ = dropTrailingZerosList l
          ++ (List.replicate (l.reverse.takeWhile (· = '0')).length '0').reverse := by
        rw [dropTrailingZerosList, ← h1]
    _ = _ := by rw [List.reverse_replicate]

theorem dropTrailingZeros_all {l : List Char} (h : l.all Char.isDigit = true) :
    (dropTrailingZerosList l).all Char.isDigit = true := by
  obtain ⟨k, hd⟩ := dropTrailingZeros_decomp l
  rw [hd, List.all_append, Bool.and_eq_true] at h
  exact h.1

theorem dropTrailingZeros_length_le (l : List Char) :
    (dropTrailingZerosList l).length ≤ l.length := by
  obtain ⟨k, hd⟩ := dropTrailingZeros_decomp l
  conv_rhs => rw [hd]
  simp

theorem dropTrailingZeros_ne_nil {l : List Char} (h : digitsVal l ≠ 0) :
    dropTrailingZerosList l ≠ [] := by
  intro hnil
  obtain ⟨k, hd⟩ := dropTrailingZeros_decomp l
  rw [hnil, List.nil_append] at hd
  rw [hd, digitsVal_replicate_zero] at h
  exact h rfl

theorem dropTrailingZeros_of_all_zero {l : List Char} (h : ∀ x ∈ l, x = '0') :
    dropTrailingZerosList l = [] := by
  have : l.reverse.dropWhile (· = '0') = [] := by
    rw [List.dropWhile_eq_nil_iff]
    intro x hx
    simpa using h x (List.mem_reverse.mp hx)
  rw [dropTrailingZerosList, this, List.reverse_nil]

theorem dropTrailingZeros_val (l : List Char) :
    ∃ k, (dropTrailingZerosList l).length + k = l.length ∧
      digitsVal l = digitsVal (dropTrailingZerosList l) * 10 ^ k := by
  obtain ⟨k, hd⟩ := dropTrailingZeros_decomp l
  refine ⟨k, ?_, ?_⟩
  · conv_rhs => rw [hd]
    simp
  · conv_lhs => rw [hd]
    rw [digitsVal_append, digitsVal_replicate_zero, List.length_replicate,
      Nat.add_zero]

/-! ## Embedding of `src/lib/utils.ts` -/

/-- Embedding of `floatToBigNumber(value, decimals)` from `src/lib/utils.ts`:
split on `'.'` (JS destructuring defaults the fraction to `"0"` only when
there is no dot; a `""` part stays empty), strip a leading `'-'` from the
integer part, pad/truncate the fraction to exactly `decimals` digits, and
parse `sign ++ integer ++ fraction` with `BigInt`.  `none` models the
`SyntaxError` that `BigInt` throws on a malformed argument. -/
def floatToBigNumber (value : String) (decimals : Nat) : Option Int :=
  let parts := splitOnChar '.' value.data
  let integer := parts.getD 0 ['0']
  let fraction := parts.getD 1 ['0']
  let negative := (stripNeg integer).1
  let integer := if negative then integer.tail else integer
  let fraction := (padEndList fraction decimals '0').take decimals
  jsBigIntList ((if negative then ['-'] else []) ++ integer ++ fraction)

/-- Embedding of `formatAmount(amount, decimals)` from `src/lib/utils.ts`.
`!amount` is the JS falsiness check for the empty string; a `BigInt` parse
failure is the `catch` branch, which returns the input unchanged.  The JS
divisor `BigInt(10 ** decimals)` is modelled as the exact `10 ^ decimals`,
which matches the double-precision `10 ** decimals` for every
`decimals ≤ 22` (all powers of ten up to `10^22` are exact doubles; the
assets in this app use at most 9). -/
def formatAmount (amount : String) (decimals : Nat) : String :=
  if amount.data.isEmpty then "0"
  else
    match jsBigIntList amount.data with
    | none => amount
    | some value =>
      let divisor : Int := (10 : Int) ^ decimals
      let integerPart := value.tdiv divisor
      let fractionalPart := value.tmod divisor
      let formattedFraction := padStartList (intToDigits fractionalPart) decimals '0'
      let trimmed := dropTrailingZerosList formattedFraction
      if trimmed.isEmpty then String.mk (intToDigits integerPart)
      else String.mk (intToDigits integerPart ++ '.' :: trimmed)

/-! ## Specification-side readings of decimal strings

These definitions formalise the words of the spec ("a decimal string
numerically equal to `v` truncated to `d` fractional digits"); they are
deliberately independent of the embedded code above. -/

/-- Attach a sign to a magnitude. -/
def intOfSign (neg : Bool) (n : Nat) : Int :=
  if neg then -(n : Int) else (n : Int)

/-- A well-formed decimal string: an optional leading `'-'`, a digit
sequence, optionally a `'.'` followed by a digit sequence, with at least
one digit overall (so `".5"`, `"5."`, `"-.5"`, `"007"` are well-formed and
`""`, `"-"`, `"."`, `"1.2.3"` are not). -/
def wellFormedDecimal (v : String) : Bool :=
  match splitOnChar '.' v.data with
  | [i] =>
    let p := stripNeg i
    p.2.all Char.isDigit && !p.2.isEmpty
  | [i, f] =>
    let p := stripNeg i
    p.2.all Char.isDigit && f.all Char.isDigit && (!p.2.isEmpty || !f.isEmpty)
  | _ => false

/-- The exact numeric value of `v` truncated to `d` fractional digits, as
an integer scaled by `10 ^ d` — the specification-side definition of
"`v` truncated to `d` fractional digits" (`none` on non-well-formed
strings). -/
def truncatedValue (v : String) (d : Nat) : Option Int :=
  match splitOnChar '.' v.data with
  | [i] =>
    let p := stripNeg i
    if p.2.all Char.isDigit ∧ p.2 ≠ [] then
      some (intOfSign p.1 (digitsVal p.2 * 10 ^ d))
    else none
  | [i, f] =>
    let p := stripNeg i
    if p.2.all Char.isDigit ∧ f.all Char.isDigit ∧ (p.2 ≠ [] ∨ f ≠ []) then
      some (intOfSign p.1
        (digitsVal p.2 * 10 ^ d + digitsVal (f.take d) * 10 ^ (d - min d f.length)))
    else none
  | _ => none

/-- The numeric value of a decimal string scaled by `10 ^ scale`, provided
the string is a well-formed decimal numeral with at most `scale`
fractional digits (`none` otherwise).  Used to state "numerically equal"
for strings produced by `formatAmount`. -/
def decValue (s : String) (scale : Nat) : Option Int :=
  match splitOnChar '.' s.data with
  | [i] =>
    let p := stripNeg i
    if p.2.all Char.isDigit ∧ p.2 ≠ [] then
      some (intOfSign p.1 (digitsVal p.2 * 10 ^ scale))
    else none
  | [i, f] =>
    let p := stripNeg i
    if p.2.all Char.isDigit ∧ p.2 ≠ [] ∧ f.all Char.isDigit ∧ f ≠ [] ∧
        f.length ≤ scale then
      some (intOfSign p.1
        (digitsVal p.2 * 10 ^ scale + digitsVal f * 10 ^ (scale - f.length)))
    else none
  | _ => none

example : floatToBigNumber "1.5" 9 = some 1500000000 := by decide
example : floatToBigNumber "2.123456789123" 9 = some 2123456789 := by decide
example : floatToBigNumber "-1.5" 1 = some (-15) := by decide
example : floatToBigNumber ".5" 2 = some 50 := by decide
example : floatToBigNumber "-.5" 0 = none := by decide
example : formatAmount "1500000000" 9 = "1.5" := by decide
example : formatAmount "1000000000" 9 = "1" := by decide
example : formatAmount "abc" 9 = "abc" := by decide
example : formatAmount (bigIntToString (-15)) 1 = "-1.-5" := by decide
example : decValue "1.5" 9 = some 1500000000 := by decide
example : truncatedValue "2.123456789123" 9 = some 2123456789 := by decide

/-! ### The fixed-point round trip -/

theorem tdiv_natCast (a b : Nat) :
    ((a : Nat) : Int).tdiv ((b : Nat) : Int) = ((a / b : Nat) : Int) := rfl

theorem tmod_natCast (a b : Nat) :
    ((a : Nat) : Int).tmod ((b : Nat) : Int) = ((a % b : Nat) : Int) := rfl

theorem intToDigits_ofNat (n : Nat) :
    intToDigits ((n : Nat) : Int) = natToDigitsTop n := by
  simp [intToDigits]


/-- Core round-trip fact: formatting the non-negative fixed-point integer
`q * 10 ^ d + r` (with `r < 10 ^ d`) through `formatAmount` produces a
decimal numeral whose value at scale `d` is exactly `q * 10 ^ d + r`. -/
theorem formatAmount_decValue (q r d : Nat) (hr : r < 10 ^ d) :
    decValue (formatAmount (bigIntToString ((q * 10 ^ d + r : Nat) : Int)) d) d
      = some ((q * 10 ^ d + r : Nat) : Int) := by
  have hd10 : 0 < 10 ^ d := pow_pos (by norm_num) d
  set n : Nat := q * 10 ^ d + r with hn
  have hdivq : n / 10 ^ d = q := by
    rw [hn, Nat.add_comm, Nat.add_mul_div_right _ _ hd10, Nat.div_eq_of_lt hr,
      Nat.zero_add]
  have hmodr : n % 10 ^ d = r := by
    rw [hn, Nat.add_comm, Nat.add_mul_mod_self_right, Nat.mod_eq_of_lt hr]
  obtain ⟨hallN, hneN, hvalN, t1⟩ := natToDigitsTop_spec n
  obtain ⟨hallQ, hneQ, hvalQ, t2⟩ := natToDigitsTop_spec q
  obtain ⟨hallR, hneR, hvalR, hlenR⟩ := natToDigitsTop_spec r
  have hdata : (bigIntToString ((n : Nat) : Int)).data = natToDigitsTop n := by
    rw [bigIntToString, intToDigits_ofNat]
  have hparse : jsBigIntList (natToDigitsTop n) = some ((n : Nat) : Int) := by
    rw [jsBigIntList_of_digits hallN, hvalN]
  have hcast : ((10 : Int) ^ d) = ((10 ^ d : Nat) : Int) := by push_cast; ring
  have hfr : padStartList (intToDigits (((n : Nat) : Int).tmod ((10 : Int) ^ d))) d '0'
      = padStartList (natToDigitsTop r) d '0' := by
    rw [hcast, tmod_natCast, hmodr, intToDigits_ofNat]
  have hip : intToDigits (((n : Nat) : Int).tdiv ((10 : Int) ^ d))
      = natToDigitsTop q := by
    rw [hcast, tdiv_natCast, hdivq, intToDigits_ofNat]
  by_cases hr0 : r = 0
  · subst hr0
    have hzero : ∀ x ∈ padStartList (natToDigitsTop 0) d '0', x = '0' := by
      intro x hx
      rcases List.mem_append.mp hx with hx | hx
      · exact List.eq_of_mem_replicate hx
      · simpa [natToDigitsTop] using hx
    have htrim : dropTrailingZerosList (padStartList (natToDigitsTop 0) d '0') = [] :=
      dropTrailingZeros_of_all_zero hzero
    have hfmt : formatAmount (bigIntToString ((n : Nat) : Int)) d
        = String.mk (natToDigitsTop q) := by
      rw [formatAmount]
      rw [if_neg (by simp [hdata, hneN])]
      rw [hdata, hparse]
      simp only
      rw [hfr, htrim]
      simp only [List.isEmpty_nil, if_true, hip]
    rw [hfmt]
    have hsplit : splitOnChar '.' (String.mk (natToDigitsTop q)).data
        = [natToDigitsTop q] := splitOnChar_no_sep (not_dot_of_digits hallQ)
    rw [decValue.eq_def, hsplit]
    simp only [stripNeg_of_digits hallQ]
    rw [if_pos ⟨hallQ, hneQ⟩]
    simp only [intOfSign, if_neg (by decide : ¬ (false = true))]
    rw [hvalQ, hn]
    push_cast
    ring_nf
  · have hrpos : 0 < r := Nat.pos_of_ne_zero hr0
    have hd1 : 1 ≤ d := by
      by_contra hcon
      have hzd : d = 0 := by omega
      subst hzd
      simp at hr
      omega
    have hlen : (natToDigitsTop r).length ≤ d := hlenR d hd1 hr
    have hfrlen : (padStartList (natToDigitsTop r) d '0').length = d :=
      padStart_length hlen '0'
    have hfrval : digitsVal (padStartList (natToDigitsTop r) d '0') = r := by
      rw [padStart_val, hvalR]
    have hfrall : (padStartList (natToDigitsTop r) d '0').all Char.isDigit = true :=
      padStart_all d hallR
    set fr := padStartList (natToDigitsTop r) d '0' with hfrdef
    have htne : dropTrailingZerosList fr ≠ [] :=
      dropTrailingZeros_ne_nil (by rw [hfrval]; omega)
    obtain ⟨k, hk1, hk2⟩ := dropTrailingZeros_val fr
    have htall : (dropTrailingZerosList fr).all Char.isDigit = true :=
      dropTrailingZeros_all hfrall
    have hfmt : formatAmount (bigIntToString ((n : Nat) : Int)) d
        = String.mk (natToDigitsTop q ++ '.' :: dropTrailingZerosList fr) := by
      rw [formatAmount]
      rw [if_neg (by simp [hdata, hneN])]
      rw [hdata, hparse]
      simp only
      rw [hfr]
      rw [if_neg (by simpa using htne)]
      rw [hip]
    rw [hfmt]
    have hsplit : splitOnChar '.'
        (String.mk (natToDigitsTop q ++ '.' :: dropTrailingZerosList fr)).data
        = [natToDigitsTop q, dropTrailingZerosList fr] :=
      splitOnChar_two (not_dot_of_digits hallQ) (not_dot_of_digits htall)
    rw [decValue.eq_def, hsplit]
    simp only [stripNeg_of_digits hallQ]
    rw [if_pos ⟨hallQ, hneQ, htall, htne, by omega⟩]
    have hexp : d - (dropTrailingZerosList fr).length = k := by omega
    have hrval : digitsVal (dropTrailingZerosList fr) * 10 ^ k = r := by
      rw [← hk2, hfrval]
    have hmain : digitsVal (natToDigitsTop q) * 10 ^ d
        + digitsVal (dropTrailingZerosList fr)
          * 10 ^ (d - (dropTrailingZerosList fr).length) = n := by
      rw [hexp, hvalQ, hrval, hn]
    simp only [intOfSign, if_neg (by decide : ¬ (false = true)), hmain]


theorem stripNeg_of_fst_false {l : List Char} (h : (stripNeg l).1 = false) :
    stripNeg l = (false, l) := by
  cases l with
  | nil => rfl
  | cons c cs =>
    by_cases hc : c = '-'
    · rw [stripNeg, if_pos hc] at h
      simp at h
    · rw [stripNeg, if_neg hc]

theorem padTrunc_zero_val (d : Nat) :
    digitsVal ((padEndList ['0'] d '0').take d) = 0 := by
  rw [padTrunc_val]
  cases d <;> simp [digitsVal]

theorem padTrunc_zero_all (d : Nat) :
    ((padEndList ['0'] d '0').take d).all Char.isDigit = true :=
  padTrunc_all d (by decide)

/-- C3 (amended): for every well-formed NON-NEGATIVE decimal string `v` and
decimal count `d`, converting with `floatToBigNumber v d` and formatting
back with `formatAmount` (which trims trailing fractional zeros) yields a
decimal string numerically equal to `v` truncated (not rounded) to `d`
fractional digits: the fixed-point integer is exactly `truncatedValue v d`
and the formatted string re-reads (at scale `d`) to that same integer.
The bound `d ≤ 22` keeps the statement inside the range where the model of
the JS divisor `10 ** d` (see `formatAmount`) is exact; the repository
uses `d ≤ 9`.  The non-negativity hypothesis says the integer part of `v`
carries no minus sign; the claim is false for negative `v`
(see the counterexample). -/
theorem floatToBigNumber_roundtrip (v : String) (d : Nat)
    (hwf : wellFormedDecimal v = true)
    (hnn : (stripNeg ((splitOnChar '.' v.data).getD 0 [])).1 = false)
    (_hd22 : d ≤ 22) :
    ∃ n : Int, floatToBigNumber v d = some n ∧
      truncatedValue v d = some n ∧
      decValue (formatAmount (bigIntToString n) d) d = some n := by
  rcases hsp : splitOnChar '.' v.data with _ | ⟨i, _ | ⟨f, _ | ⟨g, rest⟩⟩⟩
  · exact absurd hsp (splitOnChar_ne_nil '.' v.data)
  · -- no dot: v = i
    rw [hsp] at hnn
    simp only [List.getD_cons_zero] at hnn
    have hstrip : stripNeg i = (false, i) := stripNeg_of_fst_false hnn
    rw [wellFormedDecimal, hsp] at hwf
    simp only [hstrip, Bool.and_eq_true, Bool.not_eq_true', List.isEmpty_eq_false] at hwf
    obtain ⟨hall, hne⟩ := hwf
    refine ⟨((digitsVal i * 10 ^ d + 0 : Nat) : Int), ?_, ?_, ?_⟩
    · rw [floatToBigNumber]
      simp only [hsp, List.getD_cons_zero, List.getD_cons_succ, hstrip,
        List.getD_nil, if_neg (by decide : ¬ (false = true))]
      have hall2 : (([] : List Char) ++ i ++ (padEndList ['0'] d '0').take d).all
          Char.isDigit = true := by
        simp only [List.nil_append, List.all_append, hall, padTrunc_zero_all,
          Bool.and_true]
      rw [jsBigIntList_of_digits hall2]
      simp only [List.nil_append]
      rw [digitsVal_append, padTrunc_length, padTrunc_zero_val]
    · rw [truncatedValue, hsp]
      simp only [hstrip]
      rw [if_pos ⟨hall, hne⟩]
      simp [intOfSign]
    · exact formatAmount_decValue (digitsVal i) 0 d (by positivity)
  · -- one dot: v = i ++ '.' :: f
    rw [hsp] at hnn
    simp only [List.getD_cons_zero] at hnn
    have hstrip : stripNeg i = (false, i) := stripNeg_of_fst_false hnn
    rw [wellFormedDecimal, hsp] at hwf
    simp only [hstrip, Bool.and_eq_true, Bool.or_eq_true, Bool.not_eq_true',
      List.isEmpty_eq_false] at hwf
    obtain ⟨⟨halli, hallf⟩, hne⟩ := hwf
    have hftall : ((padEndList f d '0').take d).all Char.isDigit = true :=
      padTrunc_all d hallf
    have hftlt : digitsVal ((padEndList f d '0').take d) < 10 ^ d := by
      have := digitsVal_lt _ hftall
      rwa [padTrunc_length] at this
    refine ⟨((digitsVal i * 10 ^ d
        + digitsVal ((padEndList f d '0').take d) : Nat) : Int), ?_, ?_, ?_⟩
    · rw [floatToBigNumber]
      simp only [hsp, List.getD_cons_zero, List.getD_cons_succ, hstrip,
        if_neg (by decide : ¬ (false = true))]
      have hall2 : (([] : List Char) ++ i ++ (padEndList f d '0').take d).all
          Char.isDigit = true := by
        simp only [List.nil_append, List.all_append, halli, hftall, Bool.and_true]
      rw [jsBigIntList_of_digits hall2]
      simp only [List.nil_append]
      rw [digitsVal_append, padTrunc_length]
    · rw [truncatedValue, hsp]
      simp only [hstrip]
      rw [if_pos ⟨halli, hallf, by tauto⟩]
      rw [padTrunc_val]
      simp [intOfSign]
    · exact formatAmount_decValue (digitsVal i) _ d hftlt
  · rw [wellFormedDecimal, hsp] at hwf
    simp at hwf

theorem stripNeg_of_fst_true {l : List Char} (h : (stripNeg l).1 = true) :
    l = '-' :: (stripNeg l).2 := by
  cases l with
  | nil => simp [stripNeg] at h
  | cons c cs =>
    by_cases hc : c = '-'
    · rw [stripNeg, if_pos hc]
      rw [hc]
    · rw [stripNeg, if_neg hc] at h
      simp at h

theorem jsBigIntList_neg {l : List Char} (hne : l ≠ [])
    (hall : l.all Char.isDigit = true) :
    jsBigIntList ('-' :: l) = some (-((digitsVal l : Nat) : Int)) := by
  have hf : (('-' :: l).all Char.isDigit) = false := by
    simp [List.all_cons]
  rw [jsBigIntList.eq_def, hf]
  simp only [Bool.false_eq_true, if_false]
  simp [hne, hall]

/-- C8 (amended): `floatToBigNumber` never throws on a well-formed decimal
string — a missing integer part contributes no digits (numerically `"0"`),
a missing fractional part is defaulted to `"0"`, and the fraction is
padded/truncated to exactly `decimals` digits — EXCEPT in one corner: a
negative number with an empty integer part (such as `"-.5"`) when
`decimals = 0`, where the string handed to `BigInt` is just `"-"` and
`BigInt` throws a `SyntaxError` (see the counterexample).  The hypothesis
`hneg` excludes exactly that corner. -/
theorem floatToBigNumber_total (v : String) (d : Nat)
    (hwf : wellFormedDecimal v = true)
    (hneg : (stripNeg ((splitOnChar '.' v.data).getD 0 [])).1 = true →
      (stripNeg ((splitOnChar '.' v.data).getD 0 [])).2 ≠ [] ∨ 1 ≤ d) :
    ∃ n : Int, floatToBigNumber v d = some n := by
  rcases hsp : splitOnChar '.' v.data with _ | ⟨i, _ | ⟨f, _ | ⟨g, rest⟩⟩⟩
  · exact absurd hsp (splitOnChar_ne_nil '.' v.data)
  · rw [hsp] at hneg
    simp only [List.getD_cons_zero] at hneg
    rw [wellFormedDecimal, hsp] at hwf
    simp only [Bool.and_eq_true, Bool.not_eq_true', List.isEmpty_eq_false] at hwf
    obtain ⟨hall, hne⟩ := hwf
    rw [floatToBigNumber]
    simp only [hsp, List.getD_cons_zero, List.getD_cons_succ, List.getD_nil]
    cases hb : (stripNeg i).1 with
    | false =>
      have hstrip : stripNeg i = (false, i) := stripNeg_of_fst_false hb
      rw [hstrip] at hall hne
      simp only [hstrip, if_neg (by decide : ¬ (false = true))]
      have hall2 : (([] : List Char) ++ i ++ (padEndList ['0'] d '0').take d).all
          Char.isDigit = true := by
        simp only [List.nil_append, List.all_append, hall, padTrunc_zero_all,
          Bool.and_true]
      rw [jsBigIntList_of_digits hall2]
      exact ⟨_, rfl⟩
    | true =>
      have hshape : i = '-' :: (stripNeg i).2 := stripNeg_of_fst_true hb
      have htail : i.tail = (stripNeg i).2 := by rw [hshape]; rfl
      have hrestne : (stripNeg i).2 ++ (padEndList ['0'] d '0').take d ≠ [] := by
        intro hcon
        rcases List.append_eq_nil.mp hcon with ⟨h1, _⟩
        exact hne h1
      have hrestall : ((stripNeg i).2 ++ (padEndList ['0'] d '0').take d).all
          Char.isDigit = true := by
        simp only [List.all_append, hall, padTrunc_zero_all, Bool.and_true]
      simp only [eq_self_iff_true, if_true]
      rw [htail, List.singleton_append, List.cons_append,
        jsBigIntList_neg hrestne hrestall]
      exact ⟨_, rfl⟩
  · rw [hsp] at hneg
    simp only [List.getD_cons_zero] at hneg
    rw [wellFormedDecimal, hsp] at hwf
    simp only [Bool.and_eq_true, Bool.or_eq_true, Bool.not_eq_true',
      List.isEmpty_eq_false] at hwf
    obtain ⟨⟨halli, hallf⟩, hor⟩ := hwf
    have hftall : ((padEndList f d '0').take d).all Char.isDigit = true :=
      padTrunc_all d hallf
    rw [floatToBigNumber]
    simp only [hsp, List.getD_cons_zero, List.getD_cons_succ]
    cases hb : (stripNeg i).1 with
    | false =>
      have hstrip : stripNeg i = (false, i) := stripNeg_of_fst_false hb
      rw [hstrip] at halli
      simp only [hstrip, if_neg (by decide : ¬ (false = true))]
      have hall2 : (([] : List Char) ++ i ++ (padEndList f d '0').take d).all
          Char.isDigit = true := by
        simp only [List.nil_append, List.all_append, halli, hftall, Bool.and_true]
      rw [jsBigIntList_of_digits hall2]
      exact ⟨_, rfl⟩
    | true =>
      have hshape : i = '-' :: (stripNeg i).2 := stripNeg_of_fst_true hb
      have htail : i.tail = (stripNeg i).2 := by rw [hshape]; rfl
      have hrestne : (stripNeg i).2 ++ (padEndList f d '0').take d ≠ [] := by
        rcases hneg hb with h | h
        · intro hcon
          rcases List.append_eq_nil.mp hcon with ⟨h1, _⟩
          exact h h1
        · intro hcon
          rcases List.append_eq_nil.mp hcon with ⟨_, h2⟩
          have := padTrunc_length f d
          rw [h2] at this
          simp at this
          omega
      have hrestall : ((stripNeg i).2 ++ (padEndList f d '0').take d).all
          Char.isDigit = true := by
        simp only [List.all_append, halli, hftall, Bool.and_true]
      simp only [eq_self_iff_true, if_true]
      rw [htail, List.singleton_append, List.cons_append,
        jsBigIntList_neg hrestne hrestall]
      exact ⟨_, rfl⟩
  · rw [wellFormedDecimal, hsp] at hwf
    simp at hwf

/-- C3 counterexample: for the valid (well-formed) negative decimal string
`"-1.5"` with `d = 1`, the fixed-point conversion gives `-15`, but
formatting `-15` back produces the malformed string `"-1.-5"` — the JS
code builds the fractional part from the negative remainder `-15 % 10 =
-5` — which is not a decimal numeral at all (`decValue` rejects it), so it
is not numerically equal to `-1.5` truncated to one fractional digit. -/
theorem roundtrip_fails_on_negative :
    wellFormedDecimal "-1.5" = true ∧
    floatToBigNumber "-1.5" 1 = some (-15) ∧
    truncatedValue "-1.5" 1 = some (-15) ∧
    formatAmount (bigIntToString (-15)) 1 = "-1.-5" ∧
    decValue "-1.-5" 1 = none := by
  refine ⟨by decide, by decide, by decide, by decide, by decide⟩

/-- Witness for `floatToBigNumber_roundtrip` at `v = "2.123456789123"`,
`d = 9` (the conversion truncates the surplus digits `123`). -/
theorem floatToBigNumber_roundtrip_witness :
    (wellFormedDecimal "2.123456789123" = true ∧
      (stripNeg ((splitOnChar '.' ("2.123456789123" : String).data).getD 0 [])).1
        = false ∧ (9 : Nat) ≤ 22) ∧
    ∃ n : Int, floatToBigNumber "2.123456789123" 9 = some n ∧
      truncatedValue "2.123456789123" 9 = some n ∧
      decValue (formatAmount (bigIntToString n) 9) 9 = some n :=
  ⟨⟨by decide, by decide, by decide⟩,
    floatToBigNumber_roundtrip "2.123456789123" 9 (by decide) (by decide)
      (by decide)⟩

/-- C8 counterexample: `"-.5"` is a well-formed decimal string (optional
sign, empty integer part, fractional digits), yet with `decimals = 0` the
code passes the bare string `"-"` to `BigInt`, which throws — modelled as
`none`. -/
theorem floatToBigNumber_throws_on_neg_empty_integer :
    wellFormedDecimal "-.5" = true ∧ floatToBigNumber "-.5" 0 = none := by
  refine ⟨by decide, by decide⟩

/-- Witness for `floatToBigNumber_total`: the same negative fraction
converts fine as soon as `decimals ≥ 1`. -/
theorem floatToBigNumber_total_witness :
    wellFormedDecimal "-.5" = true ∧
    ∃ n : Int, floatToBigNumber "-.5" 1 = some n :=
  ⟨by decide, floatToBigNumber_total "-.5" 1 (by decide)
    (fun _ => Or.inr (by decide))⟩

/-! ## Liquidity form data model

Embedding of the `LiquidityFormData` record and the `"A" | "B"` /
`LiquidityProvisionType` unions of `useTonConnect.ts` /
`useProvideLiquidity.ts`. -/

/-- The `"A" | "B"` side union. -/
inductive Side where
  | A
  | B
deriving DecidableEq, Repr

/-- The `LiquidityProvisionType` union from `@ston-fi/api`. -/
inductive ProvisionType where
  | Initial
  | Balanced
  | Arbitrary
deriving DecidableEq, Repr

/-- The fields of an `AssetInfoV2` that this code reads: the contract
address and the resolved decimal count (`meta?.decimals ?? 9`). -/
structure AssetInfo where
  contractAddress : String
  decimals : Nat
deriving DecidableEq, Repr

/-- The `LiquidityFormData` record (state of `useProvideLiquidity`).
`none` models `null`/`undefined`. -/
structure LiquidityFormData where
  tokenA : Option AssetInfo
  tokenB : Option AssetInfo
  amountA : String
  amountB : String
  firstChangedSide : Option Side
  activeSide : Option Side
  provisionType : ProvisionType
  poolAddress : Option String
  provisionHistory : List ProvisionType
deriving DecidableEq, Repr

/-- The initial form state of `useProvideLiquidity` (its `useState`
initialiser): empty amounts, `Initial` mode and — notably — an EMPTY
provision-mode history. -/
def initialLiquidityFormData : LiquidityFormData :=
  { tokenA := none, tokenB := none, amountA := "", amountB := "",
    firstChangedSide := none, activeSide := none,
    provisionType := ProvisionType.Initial, poolAddress := none,
    provisionHistory := [] }

/-! ## The "pool already exists" error classifier (C1)

Models of the two regular expressions in the `useEffect` of
`useTonConnect.ts` lines 246-282. -/

/-- JS `\s` on the characters that can occur here. -/
def isSpaceB (c : Char) : Bool :=
  c = ' ' || c = '\t' || c = '\n' || c = '\r'

/-- The literal part of `/already exists:\s*(\S+)/`. -/
def standardPat : List Char := ("already exists:" : String).data

/-- First-match semantics of `msg.match(/already exists:\s*(\S+)/)`:
scan left to right for the literal, skip whitespace, capture the maximal
non-empty run of non-whitespace; if the run is empty the regex cannot
match at this position and the scan continues. -/
def matchStandardFrom : List Char → Option (List Char)
  | [] => none
  | c :: rest =>
    if standardPat.isPrefixOf (c :: rest) then
      let after := (c :: rest).drop standardPat.length
      let cap := (after.dropWhile isSpaceB).takeWhile (fun x => !isSpaceB x)
      if cap.isEmpty then matchStandardFrom rest else some cap
    else matchStandardFrom rest

/-- The literal part of
`/already exists for selected type of router: \[(.*?)\]/`. -/
def altPat : List Char :=
  ("already exists for selected type of router: [" : String).data

/-- First-match semantics of the alternate pattern: after the literal, the
lazy group `(.*?)` captures up to the first `']'`; in JS regexes `.` does
not match a newline, so a newline before the closing bracket defeats the
match at this position. -/
def matchAlternateFrom : List Char → Option (List Char)
  | [] => none
  | c :: rest =>
    if altPat.isPrefixOf (c :: rest) then
      let after := (c :: rest).drop altPat.length
      let cap := after.takeWhile (fun x => !(x = ']' : Bool))
      if cap.length < after.length && !cap.contains '\n' then some cap
      else matchAlternateFrom rest
    else matchAlternateFrom rest

/-- JS `String.prototype.trim()` (on the whitespace forms modelled here). -/
def trimChars (l : List Char) : List Char :=
  ((l.dropWhile isSpaceB).reverse.dropWhile isSpaceB).reverse

/-- The pool-address extraction of the error effect:
`standardMatch?.[1] || (alternateMatch ? alternateMatch[1].split(",")[0].trim() : null)`
followed by the `if (!poolAddress) return;` falsiness guard. -/
def extractPoolAddress (msg : String) : Option String :=
  match matchStandardFrom msg.data with
  | some cap => some (String.mk cap)
  | none =>
    match matchAlternateFrom msg.data with
    | some cap =>
      let a := trimChars ((splitOnChar ',' cap).getD 0 [])
      if a.isEmpty then none else some (String.mk a)
    | none => none

/-- Embedding of the "already exists" error `useEffect` of
`useTonConnect.ts` (lines 246-282): given the error's `data` string (if
the error carried one), transition an `Initial`-mode form to `Balanced`,
record the discovered pool address, append `Balanced` to the
provision-mode history unless already present, and set `activeSide` to
`firstChangedSide`, falling back to whichever amount is non-empty. -/
def handlePoolExistsError (errorData : Option String)
    (prev : LiquidityFormData) : LiquidityFormData :=
  if prev.provisionType ≠ ProvisionType.Initial then prev
  else
    match errorData with
    | none => prev
    | some msg =>
      match extractPoolAddress msg with
      | none => prev
      | some addr =>
        let newHistory :=
          if ProvisionType.Balanced ∈ prev.provisionHistory then
            prev.provisionHistory
          else prev.provisionHistory ++ [ProvisionType.Balanced]
        let nextActiveSide :=
          match prev.firstChangedSide with
          | some s => some s
          | none =>
            if prev.amountA ≠ "" then some Side.A
            else if prev.amountB ≠ "" then some Side.B
            else none
        { prev with provisionType := ProvisionType.Balanced,
                    poolAddress := some addr,
                    provisionHistory := newHistory,
                    activeSide := nextActiveSide }

example : extractPoolAddress "Pool already exists: EQpool123" = some "EQpool123" := by decide
example : extractPoolAddress "already exists for selected type of router: [EQx, EQy]" = some "EQx" := by decide
example : extractPoolAddress "some other error" = none := by decide

/-- C1 (amended): in `Initial` mode with both amounts populated, an error
whose message matches `already exists:\s*(\S+)` makes the controller
switch to `Balanced`, record the captured pool address, append `Balanced`
to the provision-mode history (so the history contains `Balanced`; it
contains `Initial` only if `Initial` had been recorded before, which the
initial state's empty history does not provide), and set `activeSide` to
`firstChangedSide` when known, else to side `A` — the first non-empty
amount field checked. -/
theorem handlePoolExistsError_transition (prev : LiquidityFormData)
    (msg : String) (cap : List Char)
    (hInit : prev.provisionType = ProvisionType.Initial)
    (hA : prev.amountA ≠ "") (_hB : prev.amountB ≠ "")
    (hmatch : matchStandardFrom msg.data = some cap) :
    (handlePoolExistsError (some msg) prev).provisionType
        = ProvisionType.Balanced ∧
    (handlePoolExistsError (some msg) prev).poolAddress
        = some (String.mk cap) ∧
    ProvisionType.Balanced ∈
        (handlePoolExistsError (some msg) prev).provisionHistory ∧
    (handlePoolExistsError (some msg) prev).activeSide
        = some (prev.firstChangedSide.getD Side.A) := by
  have hred : handlePoolExistsError (some msg) prev =
      { prev with provisionType := ProvisionType.Balanced,
                  poolAddress := some (String.mk cap),
                  provisionHistory :=
                    if ProvisionType.Balanced ∈ prev.provisionHistory then
                      prev.provisionHistory
                    else prev.provisionHistory ++ [ProvisionType.Balanced],
                  activeSide :=
                    match prev.firstChangedSide with
                    | some s => some s
                    | none =>
                      if prev.amountA ≠ "" then some Side.A
                      else if prev.amountB ≠ "" then some Side.B
                      else none } := by
    rw [handlePoolExistsError]
    rw [if_neg (by simp [hInit])]
    rw [extractPoolAddress, hmatch]
  rw [hred]
  refine ⟨rfl, rfl, ?_, ?_⟩
  · by_cases hmem : ProvisionType.Balanced ∈ prev.provisionHistory
    · simp [hmem]
    · simp only [if_neg hmem]
      exact List.mem_append_right _ (List.mem_singleton.mpr rfl)
  · cases hfc : prev.firstChangedSide with
    | some s => simp [hfc]
    | none => simp [hfc, hA]

/-- A reachable `Initial`-mode state: tokens selected, both amounts typed
(side A first), no manual mode switches, so the provision history is still
empty. -/
def c1Prev : LiquidityFormData :=
  { initialLiquidityFormData with
    tokenA := some ⟨"EQtokA", 9⟩, tokenB := some ⟨"EQtokB", 9⟩,
    amountA := "1", amountB := "2", firstChangedSide := some Side.A }

/-- C1 counterexample: from the reachable state `c1Prev` (whose provision
history is `[]`), the "already exists" transition yields a history equal
to `[Balanced]` — it does NOT contain `Initial`, contradicting the claim
that the resulting history contains both `Initial` and `Balanced`. -/
theorem poolExistsError_history_misses_Initial :
    (handlePoolExistsError (some "Pool already exists: EQp1") c1Prev).provisionType
        = ProvisionType.Balanced ∧
    (handlePoolExistsError (some "Pool already exists: EQp1") c1Prev).provisionHistory
        = [ProvisionType.Balanced] ∧
    ProvisionType.Initial ∉
      (handlePoolExistsError (some "Pool already exists: EQp1") c1Prev).provisionHistory := by
  refine ⟨by decide, by decide, by decide⟩

/-- Witness for `handlePoolExistsError_transition` at the concrete state
`c1Prev` and message `"Pool already exists: EQp1"`. -/
theorem handlePoolExistsError_transition_witness :
    (c1Prev.provisionType = ProvisionType.Initial ∧ c1Prev.amountA ≠ "" ∧
      c1Prev.amountB ≠ "" ∧
      matchStandardFrom ("Pool already exists: EQp1" : String).data
        = some ("EQp1" : String).data) ∧
    ((handlePoolExistsError (some "Pool already exists: EQp1") c1Prev).provisionType
        = ProvisionType.Balanced ∧
     (handlePoolExistsError (some "Pool already exists: EQp1") c1Prev).poolAddress
        = some (String.mk ("EQp1" : String).data) ∧
     ProvisionType.Balanced ∈
        (handlePoolExistsError (some "Pool already exists: EQp1") c1Prev).provisionHistory ∧
     (handlePoolExistsError (some "Pool already exists: EQp1") c1Prev).activeSide
        = some (c1Prev.firstChangedSide.getD Side.A)) :=
  ⟨⟨by decide, by decide, by decide, by decide⟩,
    handlePoolExistsError_transition c1Prev "Pool already exists: EQp1"
      ("EQp1" : String).data (by decide) (by decide) (by decide) (by decide)⟩

/-! ## Balanced-mode reconciliation (C2) -/

/-- The fields of a `LiquidityProvisionSimulation` that the controller
reads. -/
structure LiquiditySimulation where
  tokenAUnits : String
  tokenBUnits : String
  minLpUnits : String
deriving DecidableEq, Repr

/-- Return value of `getUpdatedBalancedAmounts` (the `{ amountA, amountB }`
object). -/
structure UpdatedAmounts where
  amountA : String
  amountB : String
deriving DecidableEq, Repr

/-- Embedding of `getUpdatedBalancedAmounts` from `useSimulateLiquidity.ts`
(lines 190-225): in `Balanced` mode overwrite only the side opposite to
`activeSide` with the simulation's quoted units formatted at that side's
decimals; in every other case return the current amounts unchanged.  The
truthiness guards `simulation.tokenBUnits` / `simulation.tokenAUnits` are
non-emptiness of the strings. -/
def getUpdatedBalancedAmounts (provisionType : ProvisionType)
    (activeSide : Option Side) (currentA currentB : String)
    (decimalsA decimalsB : Nat)
    (simulation : Option LiquiditySimulation) : UpdatedAmounts :=
  match simulation with
  | none => ⟨currentA, currentB⟩
  | some sim =>
    if provisionType ≠ ProvisionType.Balanced then ⟨currentA, currentB⟩
    else if activeSide = some Side.A ∧ sim.tokenBUnits ≠ "" then
      ⟨currentA, formatAmount sim.tokenBUnits decimalsB⟩
    else if activeSide = some Side.B ∧ sim.tokenAUnits ≠ "" then
      ⟨formatAmount sim.tokenAUnits decimalsA, currentB⟩
    else ⟨currentA, currentB⟩

/-- C2: in `Balanced` mode with `activeSide = A`, a simulation result with
quoted B-units overwrites side B with those units formatted at B's
decimals (trailing zeros trimmed by `formatAmount`), and side A's amount
is never altered (whether or not a result is present); symmetrically for
`activeSide = B`. -/
theorem getUpdatedBalancedAmounts_reconciliation (currentA currentB : String)
    (decimalsA decimalsB : Nat) (sim : LiquiditySimulation)
    (simOpt : Option LiquiditySimulation) :
    (sim.tokenBUnits ≠ "" →
      getUpdatedBalancedAmounts ProvisionType.Balanced (some Side.A)
          currentA currentB decimalsA decimalsB (some sim)
        = ⟨currentA, formatAmount sim.tokenBUnits decimalsB⟩) ∧
    (getUpdatedBalancedAmounts ProvisionType.Balanced (some Side.A)
        currentA currentB decimalsA decimalsB simOpt).amountA = currentA ∧
    (sim.tokenAUnits ≠ "" →
      getUpdatedBalancedAmounts ProvisionType.Balanced (some Side.B)
          currentA currentB decimalsA decimalsB (some sim)
        = ⟨formatAmount sim.tokenAUnits decimalsA, currentB⟩) ∧
    (getUpdatedBalancedAmounts ProvisionType.Balanced (some Side.B)
        currentA currentB decimalsA decimalsB simOpt).amountB = currentB := by
  refine ⟨?_, ?_, ?_, ?_⟩
  · intro hB
    simp [getUpdatedBalancedAmounts, hB]
  · cases simOpt with
    | none => rfl
    | some s =>
      by_cases hB : s.tokenBUnits ≠ "" <;>
        simp [getUpdatedBalancedAmounts, hB]
  · intro hA
    simp [getUpdatedBalancedAmounts, hA]
  · cases simOpt with
    | none => rfl
    | some s =>
      by_cases hA : s.tokenAUnits ≠ "" <;>
        simp [getUpdatedBalancedAmounts, hA]

/-- Witness for `getUpdatedBalancedAmounts_reconciliation`: with
`activeSide = A` and quoted B-units `1500000000` at 9 decimals, side B
becomes `"1.5"` and side A keeps the typed `"3"`. -/
theorem getUpdatedBalancedAmounts_reconciliation_witness :
    (("1500000000" : String) ≠ "" ∧
      getUpdatedBalancedAmounts ProvisionType.Balanced (some Side.A)
          "3" "old" 9 9 (some ⟨"2000000000", "1500000000", "7"⟩)
        = ⟨"3", "1.5"⟩) ∧
    (getUpdatedBalancedAmounts ProvisionType.Balanced (some Side.A)
        "3" "old" 9 9 (some ⟨"2000000000", "1500000000", "7"⟩)).amountA = "3" :=
  ⟨⟨by decide,
      by
        have h := (getUpdatedBalancedAmounts_reconciliation "3" "old" 9 9
          ⟨"2000000000", "1500000000", "7"⟩
          (some ⟨"2000000000", "1500000000", "7"⟩)).1 (by decide)
        rw [h]
        decide⟩,
    (getUpdatedBalancedAmounts_reconciliation "3" "old" 9 9
      ⟨"2000000000", "1500000000", "7"⟩
      (some ⟨"2000000000", "1500000000", "7"⟩)).2.1⟩

/-! ## Token (asset) selection change on the liquidity form (C5) -/

/-- JS truthiness of an optional string (`undefined` and `""` are falsy). -/
def optStrTruthy : Option String → Bool
  | none => false
  | some s => decide (s ≠ "")

/-- Embedding of `handleTokenChange` from `useTonConnect.ts` (lines
285-316): replace the side's token and clear that side's amount; when an
asset was previously selected on that side and the new asset's contract
address differs (`oldAddress && newAddress && oldAddress !== newAddress`),
perform a full form reset — `Initial` mode, both amounts empty, no pool
address, no active/first-changed side, empty mode history. -/
def handleTokenChange (side : Side) (asset : Option AssetInfo)
    (prev : LiquidityFormData) : LiquidityFormData :=
  let oldAsset := match side with
    | Side.A => prev.tokenA
    | Side.B => prev.tokenB
  let oldAddress := oldAsset.map AssetInfo.contractAddress
  let newAddress := asset.map AssetInfo.contractAddress
  let newState := match side with
    | Side.A => { prev with tokenA := asset, amountA := "" }
    | Side.B => { prev with tokenB := asset, amountB := "" }
  if optStrTruthy oldAddress && optStrTruthy newAddress
      && decide (oldAddress ≠ newAddress) then
    { newState with provisionType := ProvisionType.Initial,
                    activeSide := none, firstChangedSide := none,
                    amountA := "", amountB := "", poolAddress := none,
                    provisionHistory := [] }
  else newState

/-- C5: changing either side's selected asset to a different asset (both
the old and the new selection being real assets, i.e. with non-empty
contract addresses) resets both amounts to `""`, clears `poolAddress`,
reverts `provisionType` to `Initial`, and resets `activeSide`,
`firstChangedSide` and the provision-mode history. -/
theorem handleTokenChange_reset (side : Side) (a old : AssetInfo)
    (prev : LiquidityFormData)
    (hold : (match side with
             | Side.A => prev.tokenA
             | Side.B => prev.tokenB) = some old)
    (h1 : old.contractAddress ≠ "") (h2 : a.contractAddress ≠ "")
    (hne : old.contractAddress ≠ a.contractAddress) :
    (handleTokenChange side (some a) prev).amountA = "" ∧
    (handleTokenChange side (some a) prev).amountB = "" ∧
    (handleTokenChange side (some a) prev).poolAddress = none ∧
    (handleTokenChange side (some a) prev).provisionType
        = ProvisionType.Initial ∧
    (handleTokenChange side (some a) prev).activeSide = none ∧
    (handleTokenChange side (some a) prev).firstChangedSide = none ∧
    (handleTokenChange side (some a) prev).provisionHistory = [] := by
  have hcond : (optStrTruthy ((match side with
      | Side.A => prev.tokenA
      | Side.B => prev.tokenB).map AssetInfo.contractAddress)
      && optStrTruthy ((some a).map AssetInfo.contractAddress)
      && decide ((match side with
      | Side.A => prev.tokenA
      | Side.B => prev.tokenB).map AssetInfo.contractAddress
        ≠ (some a).map AssetInfo.contractAddress)) = true := by
    rw [hold]
    simp only [Option.map_some, optStrTruthy, Bool.and_eq_true, decide_eq_true_eq]
    refine ⟨⟨by simpa using h1, by simpa using h2⟩, by simp [hne]⟩
  cases side with
  | A =>
    rw [handleTokenChange]
    simp only
    rw [if_pos hcond]
    exact ⟨rfl, rfl, rfl, rfl, rfl, rfl, rfl⟩
  | B =>
    rw [handleTokenChange]
    simp only
    rw [if_pos hcond]
    exact ⟨rfl, rfl, rfl, rfl, rfl, rfl, rfl⟩

/-- A `Balanced`-mode state with a discovered pool and populated amounts,
as in the spec's example. -/
def c5Prev : LiquidityFormData :=
  { tokenA := some ⟨"EQtokA", 9⟩, tokenB := some ⟨"EQtokB", 9⟩,
    amountA := "10", amountB := "3", firstChangedSide := some Side.A,
    activeSide := some Side.A, provisionType := ProvisionType.Balanced,
    poolAddress := some "EQabc", provisionHistory := [ProvisionType.Balanced] }

/-- Witness for `handleTokenChange_reset`: from a `Balanced`-mode state
with a discovered pool and typed amounts, switching token B to a different
asset yields the fully reset `Initial` state. -/
theorem handleTokenChange_reset_witness :
    ((match Side.B with
      | Side.A => c5Prev.tokenA
      | Side.B => c5Prev.tokenB) = some ⟨"EQtokB", 9⟩ ∧
      ("EQtokB" : String) ≠ "" ∧ ("EQtokC" : String) ≠ "" ∧
      ("EQtokB" : String) ≠ "EQtokC") ∧
    ((handleTokenChange Side.B (some ⟨"EQtokC", 6⟩) c5Prev).amountA = "" ∧
     (handleTokenChange Side.B (some ⟨"EQtokC", 6⟩) c5Prev).amountB = "" ∧
     (handleTokenChange Side.B (some ⟨"EQtokC", 6⟩) c5Prev).poolAddress = none ∧
     (handleTokenChange Side.B (some ⟨"EQtokC", 6⟩) c5Prev).provisionType
        = ProvisionType.Initial ∧
     (handleTokenChange Side.B (some ⟨"EQtokC", 6⟩) c5Prev).activeSide = none ∧
     (handleTokenChange Side.B (some ⟨"EQtokC", 6⟩) c5Prev).firstChangedSide
        = none ∧
     (handleTokenChange Side.B (some ⟨"EQtokC", 6⟩) c5Prev).provisionHistory
        = []) :=
  ⟨⟨by decide, by decide, by decide, by decide⟩,
    handleTokenChange_reset Side.B ⟨"EQtokC", 6⟩ ⟨"EQtokB", 9⟩ c5Prev
      (by decide) (by decide) (by decide) (by decide)⟩

/-! ## Swap form asset selection (C7) -/

/-- The swap form fields touched by asset selection
(`useSimpleSwap.ts`). -/
structure SwapFormState where
  offerAsset : Option AssetInfo
  askAsset : Option AssetInfo
  offerAmount : String
  askAmount : String
deriving DecidableEq, Repr

/-- Embedding of `handleOfferAssetChange` (`useSimpleSwap.ts` lines
213-223, identical inline in `Swap`): set the offer asset, clear the ask
asset when its contract address equals the new offer asset's
(`asset?.contractAddress === state.askAsset?.contractAddress`), and clear
both amounts. -/
def handleOfferAssetChange (asset : Option AssetInfo)
    (st : SwapFormState) : SwapFormState :=
  { st with
    offerAsset := asset,
    askAsset :=
      if asset.map AssetInfo.contractAddress
          = st.askAsset.map AssetInfo.contractAddress then none
      else st.askAsset,
    offerAmount := "", askAmount := "" }

/-- Embedding of `handleAskAssetChange` (`useSimpleSwap.ts` lines
225-230): set the ask asset and clear the ask amount — with NO check
against the offer side. -/
def handleAskAssetChange (asset : Option AssetInfo)
    (st : SwapFormState) : SwapFormState :=
  { st with askAsset := asset, askAmount := "" }

/-- A swap form state with TON selected on the offer side. -/
def c7State : SwapFormState :=
  { offerAsset := some ⟨"EQton", 9⟩, askAsset := none,
    offerAmount := "", askAmount := "" }

/-- C7 counterexample: selecting on the ASK side the very asset already
selected on the offer side leaves the offer side untouched, so both sides
end up holding the same asset — the claimed clearing happens only in the
offer-side handler. -/
theorem askAssetChange_keeps_duplicate_offer :
    (handleAskAssetChange (some ⟨"EQton", 9⟩) c7State).offerAsset
        = some ⟨"EQton", 9⟩ ∧
    (handleAskAssetChange (some ⟨"EQton", 9⟩) c7State).askAsset
        = some ⟨"EQton", 9⟩ := by
  refine ⟨by decide, by decide⟩

/-- C7 (amended): the duplicate-asset clearing is one-sided.  Selecting an
offer asset whose contract address equals the current ask asset's clears
the ask selection; selecting an ask asset never alters the offer
selection, even when it duplicates it. -/
theorem assetChange_duplicate_clearing (asset : Option AssetInfo)
    (st : SwapFormState) :
    (asset.map AssetInfo.contractAddress
        = st.askAsset.map AssetInfo.contractAddress →
      (handleOfferAssetChange asset st).askAsset = none) ∧
    (handleAskAssetChange asset st).offerAsset = st.offerAsset := by
  constructor
  · intro h
    simp [handleOfferAssetChange, h]
  · rfl

/-- Witness for `assetChange_duplicate_clearing`: re-selecting the ask
side's asset on the offer side clears the ask side. -/
theorem assetChange_duplicate_clearing_witness :
    ((some (⟨"EQjet", 6⟩ : AssetInfo)).map AssetInfo.contractAddress
        = (some (⟨"EQjet", 6⟩ : AssetInfo)).map AssetInfo.contractAddress ∧
      (handleOfferAssetChange (some ⟨"EQjet", 6⟩)
        { offerAsset := some ⟨"EQton", 9⟩, askAsset := some ⟨"EQjet", 6⟩,
          offerAmount := "1", askAmount := "2" }).askAsset = none) ∧
    (handleAskAssetChange (some ⟨"EQjet", 6⟩)
        { offerAsset := some ⟨"EQton", 9⟩, askAsset := some ⟨"EQjet", 6⟩,
          offerAmount := "1", askAmount := "2" }).offerAsset
      = some ⟨"EQton", 9⟩ :=
  ⟨⟨by decide,
      (assetChange_duplicate_clearing (some ⟨"EQjet", 6⟩)
        { offerAsset := some ⟨"EQton", 9⟩, askAsset := some ⟨"EQjet", 6⟩,
          offerAmount := "1", askAmount := "2" }).1 (by decide)⟩,
    (assetChange_duplicate_clearing (some ⟨"EQjet", 6⟩)
        { offerAsset := some ⟨"EQton", 9⟩, askAsset := some ⟨"EQjet", 6⟩,
          offerAmount := "1", askAmount := "2" }).2⟩

/-! ## Superseding in-flight swap simulations (C4)

The simulation `useEffect` of `useSimpleSwap.ts` (lines 83-162) closes a
fresh `isCancelled` flag over each run; the effect's cleanup (run when the
inputs change and a newer request starts, i.e. whenever a newer effect run
begins) sets the flag, and the response callback applies its result only
`if (!isCancelled)`.  This is modelled, as usual for this pattern, by a
monotonically increasing generation counter: run `g`'s flag is set exactly
when a run with a larger generation has started, so a response is applied
iff its generation is still the latest. -/

/-- The fields of a `SwapSimulation` result that reconciliation reads. -/
structure SwapSimResult where
  offerUnits : String
  minAskUnits : String
deriving DecidableEq, Repr

/-- The displayed swap state touched by a simulation response. -/
structure SwapDisplay where
  offerAmount : String
  askAmount : String
  simulationResult : Option SwapSimResult
deriving DecidableEq, Repr

/-- Pipeline state: the generation of the latest started request plus the
displayed state. -/
structure SimPipelineState where
  latest : Nat
  display : SwapDisplay
deriving DecidableEq, Repr

/-- One event of the simulation pipeline: a new effect run starts (the
inputs changed; any in-flight run is thereby cancelled and the displayed
`simulationResult` is reset, lines 146-150), or the response of run `gen`
arrives carrying the offer amount snapshot its closure captured. -/
inductive SimEvent where
  | request
  | response (gen : Nat) (snapOfferAmount : String) (r : SwapSimResult)
      (decimalsOffer decimalsAsk : Nat)
deriving DecidableEq, Repr

/-- The state update a (non-cancelled) response performs
(`useSimpleSwap.ts` lines 101-118): store the result and overwrite the
side the user did not type (ask when the captured `offerAmount` was
non-empty, offer otherwise) with the quoted units formatted at that
side's decimals. -/
def applySimResult (snapOfferAmount : String) (r : SwapSimResult)
    (decimalsOffer decimalsAsk : Nat) (disp : SwapDisplay) : SwapDisplay :=
  if snapOfferAmount ≠ "" then
    { disp with simulationResult := some r,
                askAmount := formatAmount r.minAskUnits decimalsAsk }
  else
    { disp with simulationResult := some r,
                offerAmount := formatAmount r.offerUnits decimalsOffer }

/-- One step of the pipeline: a new request bumps the generation (and
resets the displayed result, as the effect does before `runSimulation()`);
a response is applied only if its generation is still the latest —
`isCancelled` is false exactly then. -/
def stepSim (s : SimPipelineState) : SimEvent → SimPipelineState
  | SimEvent.request =>
    { latest := s.latest + 1,
      display := { s.display with simulationResult := none } }
  | SimEvent.response g snap r dO dA =>
    if g = s.latest then
      { s with display := applySimResult snap r dO dA s.display }
    else s

/-- Run the pipeline over a sequence of events. -/
def runSim (s : SimPipelineState) (evs : List SimEvent) : SimPipelineState :=
  evs.foldl stepSim s

theorem stepSim_stale (s : SimPipelineState) (g : Nat) (snap : String)
    (r : SwapSimResult) (dO dA : Nat) (h : g < s.latest) :
    stepSim s (SimEvent.response g snap r dO dA) = s := by
  rw [stepSim]
  exact if_neg (by omega)

theorem stepSim_latest_mono (s : SimPipelineState) (e : SimEvent) :
    s.latest ≤ (stepSim s e).latest := by
  cases e with
  | request => simp [stepSim]
  | response g snap r dO dA =>
    rw [stepSim]
    by_cases h : g = s.latest <;> simp [h, applySimResult]

/-- C4: a superseded response is never applied.  If after some prefix of
events `tr₁` the latest started generation exceeds `g` (a newer request
than `g` has started — in particular whenever the newer request's response
has already arrived), then the arrival of `g`'s response at any later
point changes nothing: the whole run equals the run without that arrival,
so the displayed amounts and simulation result reflect only newer
requests. -/
theorem staleResponse_discarded (s₀ : SimPipelineState)
    (tr₁ tr₂ : List SimEvent) (g : Nat) (snap : String) (r : SwapSimResult)
    (dO dA : Nat) (hstale : g < (runSim s₀ tr₁).latest) :
    runSim s₀ (tr₁ ++ SimEvent.response g snap r dO dA :: tr₂)
      = runSim s₀ (tr₁ ++ tr₂) := by
  rw [runSim, runSim, List.foldl_append, List.foldl_append, List.foldl_cons]
  rw [show List.foldl stepSim s₀ tr₁ = runSim s₀ tr₁ from rfl]
  rw [stepSim_stale _ _ _ _ _ _ hstale]

/-- Witness for `staleResponse_discarded`: two requests go out (the second
supersedes the first), the newer response (generation 2) arrives and is
applied, then the stale generation-1 response arrives — the run equals the
run in which it never arrived. -/
theorem staleResponse_discarded_witness :
    (1 < (runSim ⟨0, ⟨"", "", none⟩⟩
        [SimEvent.request, SimEvent.request,
         SimEvent.response 2 "5" ⟨"5000000000", "7000000000"⟩ 9 9]).latest) ∧
    runSim ⟨0, ⟨"", "", none⟩⟩
        ([SimEvent.request, SimEvent.request,
          SimEvent.response 2 "5" ⟨"5000000000", "7000000000"⟩ 9 9]
          ++ SimEvent.response 1 "5" ⟨"1", "1"⟩ 9 9 :: [])
      = runSim ⟨0, ⟨"", "", none⟩⟩
        ([SimEvent.request, SimEvent.request,
          SimEvent.response 2 "5" ⟨"5000000000", "7000000000"⟩ 9 9] ++ []) :=
  ⟨by decide,
    staleResponse_discarded ⟨0, ⟨"", "", none⟩⟩
      [SimEvent.request, SimEvent.request,
       SimEvent.response 2 "5" ⟨"5000000000", "7000000000"⟩ 9 9]
      [] 1 "5" ⟨"1", "1"⟩ 9 9 (by decide)⟩

/-! ## Simulation request shaping (`src/lib/liquidity.ts`, C10) -/

/-- Parameters of `simulateLiquidityProvision`
(`SimulateLiquidityProvisionParams`); `slippageTolerance` is optional with
JS destructuring default `"0.001"`. -/
structure SimulateParams where
  provisionType : ProvisionType
  poolAddress : Option String
  walletAddress : Option String
  tokenA : String
  tokenB : String
  tokenAUnits : Option String
  tokenBUnits : Option String
  slippageTolerance : Option String
deriving DecidableEq, Repr

/-- The request object handed to
`stonApiClient.simulateLiquidityProvision` — the shallow embedding of the
external network call is the argument it receives.  Spreads that omit a
key are modelled as `none` fields. -/
structure ApiRequest where
  tokenA : String
  tokenB : String
  slippageTolerance : String
  walletAddress : Option String
  provisionType : ProvisionType
  poolAddress : Option String
  tokenAUnits : Option String
  tokenBUnits : Option String
deriving DecidableEq, Repr

/-- Embedding of `simulateLiquidityProvision` from `src/lib/liquidity.ts`
(lines 20-94): `Except.error` models a thrown `Error` (no network call);
`Except.ok req` models the single call to the ston API client with
request `req`.  In the `Balanced` branch
`tokenAUnits ? { tokenAUnits } : { tokenBUnits }` forwards side A only
whenever `tokenAUnits` is truthy, even if both sides were supplied.
`...(walletAddress && { walletAddress })` omits a falsy wallet address. -/
def simulateLiquidityProvision (p : SimulateParams) :
    Except String ApiRequest :=
  let slippage := p.slippageTolerance.getD "0.001"
  let baseWallet := if optStrTruthy p.walletAddress then p.walletAddress
    else none
  if p.provisionType = ProvisionType.Initial then
    if ¬ (optStrTruthy p.tokenAUnits ∧ optStrTruthy p.tokenBUnits) then
      Except.error "Initial provision requires both token amounts."
    else Except.ok
      { tokenA := p.tokenA, tokenB := p.tokenB,
        slippageTolerance := slippage, walletAddress := baseWallet,
        provisionType := ProvisionType.Initial, poolAddress := none,
        tokenAUnits := p.tokenAUnits, tokenBUnits := p.tokenBUnits }
  else if p.provisionType = ProvisionType.Balanced then
    if ¬ optStrTruthy p.poolAddress then
      Except.error "Balanced provision requires pool address."
    else if ¬ (optStrTruthy p.tokenAUnits ∨ optStrTruthy p.tokenBUnits) then
      Except.error "Balanced provision requires at least one token amount."
    else if optStrTruthy p.tokenAUnits then Except.ok
      { tokenA := p.tokenA, tokenB := p.tokenB,
        slippageTolerance := slippage, walletAddress := baseWallet,
        provisionType := ProvisionType.Balanced,
        poolAddress := p.poolAddress,
        tokenAUnits := p.tokenAUnits, tokenBUnits := none }
    else Except.ok
      { tokenA := p.tokenA, tokenB := p.tokenB,
        slippageTolerance := slippage, walletAddress := baseWallet,
        provisionType := ProvisionType.Balanced,
        poolAddress := p.poolAddress,
        tokenAUnits := none, tokenBUnits := p.tokenBUnits }
  else -- Arbitrary
    if ¬ (optStrTruthy p.poolAddress ∧ optStrTruthy p.tokenAUnits ∧
        optStrTruthy p.tokenBUnits) then
      Except.error
        "Arbitrary provision requires pool address and both token amounts."
    else Except.ok
      { tokenA := p.tokenA, tokenB := p.tokenB,
        slippageTolerance := slippage, walletAddress := baseWallet,
        provisionType := ProvisionType.Arbitrary,
        poolAddress := p.poolAddress,
        tokenAUnits := p.tokenAUnits, tokenBUnits := p.tokenBUnits }

/-- JS `a || "1"` on an optional string. -/
def jsOrOne : Option String → String
  | none => "1"
  | some s => if s = "" then "1" else s

/-- Embedding of the second `simulateLiquidityProvision` variant
(`src/lib/liquidity.ts` lines 121-178, bundled with
`useProvideLiquidity.ts`): the wallet address is forwarded untouched, the
`Balanced` branch has no "at least one amount" guard and defaults the B
side to `"1"` (`tokenBUnits || "1"`), and there is no `Arbitrary` branch
(it falls through to the unknown-type throw). -/
def simulateLiquidityProvisionV2 (p : SimulateParams) :
    Except String ApiRequest :=
  let slippage := p.slippageTolerance.getD "0.001"
  if p.provisionType = ProvisionType.Initial then
    if ¬ (optStrTruthy p.tokenAUnits ∧ optStrTruthy p.tokenBUnits) then
      Except.error "Initial provision requires both token amounts."
    else Except.ok
      { tokenA := p.tokenA, tokenB := p.tokenB,
        slippageTolerance := slippage, walletAddress := p.walletAddress,
        provisionType := ProvisionType.Initial, poolAddress := none,
        tokenAUnits := p.tokenAUnits, tokenBUnits := p.tokenBUnits }
  else if p.provisionType = ProvisionType.Balanced then
    if ¬ optStrTruthy p.poolAddress then
      Except.error "Balanced provision requires pool address."
    else if optStrTruthy p.tokenAUnits then Except.ok
      { tokenA := p.tokenA, tokenB := p.tokenB,
        slippageTolerance := slippage, walletAddress := p.walletAddress,
        provisionType := ProvisionType.Balanced,
        poolAddress := p.poolAddress,
        tokenAUnits := p.tokenAUnits, tokenBUnits := none }
    else Except.ok
      { tokenA := p.tokenA, tokenB := p.tokenB,
        slippageTolerance := slippage, walletAddress := p.walletAddress,
        provisionType := ProvisionType.Balanced,
        poolAddress := p.poolAddress,
        tokenAUnits := none, tokenBUnits := some (jsOrOne p.tokenBUnits) }
  else
    Except.error "Unknown provision type"

/-- C10: whenever `simulateLiquidityProvision` is called with
`provisionType = Balanced`, a (truthy) pool address and BOTH unit amounts
provided non-empty, the request forwarded to the simulation client
carries `tokenAUnits` only and omits `tokenBUnits` — side A wins; this
holds for both variants of the function in the repository. -/
theorem simulateBalanced_prioritizes_tokenA (p : SimulateParams)
    (pa ua ub : String)
    (hpt : p.provisionType = ProvisionType.Balanced)
    (hpool : p.poolAddress = some pa) (hpa : pa ≠ "")
    (hua : p.tokenAUnits = some ua) (hua2 : ua ≠ "")
    (_hub : p.tokenBUnits = some ub) (_hub2 : ub ≠ "") :
    (∃ req : ApiRequest, simulateLiquidityProvision p = Except.ok req ∧
      req.tokenAUnits = some ua ∧ req.tokenBUnits = none) ∧
    (∃ req : ApiRequest, simulateLiquidityProvisionV2 p = Except.ok req ∧
      req.tokenAUnits = some ua ∧ req.tokenBUnits = none) := by
  have htA : optStrTruthy p.tokenAUnits = true := by
    rw [hua]; simpa [optStrTruthy] using hua2
  have hpooltr : optStrTruthy p.poolAddress = true := by
    rw [hpool]; simpa [optStrTruthy] using hpa
  constructor
  · have hres : simulateLiquidityProvision p = Except.ok
        { tokenA := p.tokenA, tokenB := p.tokenB,
          slippageTolerance := p.slippageTolerance.getD "0.001",
          walletAddress :=
            if optStrTruthy p.walletAddress then p.walletAddress else none,
          provisionType := ProvisionType.Balanced,
          poolAddress := p.poolAddress,
          tokenAUnits := p.tokenAUnits, tokenBUnits := none } := by
      rw [simulateLiquidityProvision]
      rw [if_neg (by simp [hpt]), if_pos hpt, if_neg (by simp [hpooltr]),
        if_neg (by simp [htA]), if_pos htA]
    exact ⟨_, hres, by simp [hua], rfl⟩
  · have hres : simulateLiquidityProvisionV2 p = Except.ok
        { tokenA := p.tokenA, tokenB := p.tokenB,
          slippageTolerance := p.slippageTolerance.getD "0.001",
          walletAddress := p.walletAddress,
          provisionType := ProvisionType.Balanced,
          poolAddress := p.poolAddress,
          tokenAUnits := p.tokenAUnits, tokenBUnits := none } := by
      rw [simulateLiquidityProvisionV2]
      rw [if_neg (by simp [hpt]), if_pos hpt, if_neg (by simp [hpooltr]),
        if_pos htA]
    exact ⟨_, hres, by simp [hua], rfl⟩

/-- A concrete Balanced request carrying both unit amounts. -/
def c10Params : SimulateParams :=
  { provisionType := ProvisionType.Balanced, poolAddress := some "EQpool",
    walletAddress := some "EQwallet", tokenA := "EQtokA", tokenB := "EQtokB",
    tokenAUnits := some "100", tokenBUnits := some "200",
    slippageTolerance := some "0.001" }

/-- Witness for `simulateBalanced_prioritizes_tokenA` at a concrete
request carrying both unit amounts. -/
theorem simulateBalanced_prioritizes_tokenA_witness :
    (c10Params.provisionType = ProvisionType.Balanced ∧
      c10Params.poolAddress = some "EQpool" ∧ ("EQpool" : String) ≠ "" ∧
      c10Params.tokenAUnits = some "100" ∧ ("100" : String) ≠ "" ∧
      c10Params.tokenBUnits = some "200" ∧ ("200" : String) ≠ "") ∧
    ((∃ req : ApiRequest, simulateLiquidityProvision c10Params
          = Except.ok req ∧
        req.tokenAUnits = some "100" ∧ req.tokenBUnits = none) ∧
     (∃ req : ApiRequest, simulateLiquidityProvisionV2 c10Params
          = Except.ok req ∧
        req.tokenAUnits = some "100" ∧ req.tokenBUnits = none)) :=
  ⟨⟨by decide, by decide, by decide, by decide, by decide, by decide,
      by decide⟩,
    simulateBalanced_prioritizes_tokenA c10Params "EQpool" "100" "200"
      (by decide) (by decide) (by decide) (by decide) (by decide) (by decide)
      (by decide)⟩

/-! ## The debounced simulation query (`useSimulateLiquidity.ts`, C6) -/

/-- The inputs of the query function after debouncing (the amounts and
`activeSide` the `queryKey` closes over are the debounced values). -/
structure LiquidityQueryParams where
  walletAddress : Option String
  tokenA : Option String
  tokenB : Option String
  debouncedAmountA : String
  debouncedAmountB : String
  provisionType : ProvisionType
  poolAddress : Option String
  decimalsA : Nat
  decimalsB : Nat
  debouncedActiveSide : Option Side
deriving DecidableEq, Repr

/-- The `isEnabled` gate (`useSimulateLiquidity.ts` lines 56-65): wallet
and both tokens truthy, and — per mode — at least one debounced amount
(`Balanced`) or both (`Initial`/`Arbitrary`).  Note it does NOT require a
`poolAddress`. -/
def isEnabled (p : LiquidityQueryParams) : Bool :=
  optStrTruthy p.walletAddress && optStrTruthy p.tokenA &&
    optStrTruthy p.tokenB &&
    (if p.provisionType = ProvisionType.Balanced then
      decide (p.debouncedAmountA ≠ "") || decide (p.debouncedAmountB ≠ "")
    else
      decide (p.debouncedAmountA ≠ "") && decide (p.debouncedAmountB ≠ ""))

/-- The `Balanced` unit-selection ladder of the query function (lines
95-120): pass only the debounced amount of `activeSide`, falling back to
whichever side is non-empty; `Except.error` models a `BigInt` conversion
throw inside `floatToBigNumber`. -/
def computeBalancedUnits (p : LiquidityQueryParams) :
    Except String (Option String × Option String) :=
  if p.debouncedActiveSide = some Side.A ∧ p.debouncedAmountA ≠ "" then
    match floatToBigNumber p.debouncedAmountA p.decimalsA with
    | some n => Except.ok (some (bigIntToString n), none)
    | none => Except.error "BigInt conversion failed"
  else if p.debouncedActiveSide = some Side.B ∧ p.debouncedAmountB ≠ "" then
    match floatToBigNumber p.debouncedAmountB p.decimalsB with
    | some n => Except.ok (none, some (bigIntToString n))
    | none => Except.error "BigInt conversion failed"
  else if p.debouncedAmountA ≠ "" then
    match floatToBigNumber p.debouncedAmountA p.decimalsA with
    | some n => Except.ok (some (bigIntToString n), none)
    | none => Except.error "BigInt conversion failed"
  else if p.debouncedAmountB ≠ "" then
    match floatToBigNumber p.debouncedAmountB p.decimalsB with
    | some n => Except.ok (none, some (bigIntToString n))
    | none => Except.error "BigInt conversion failed"
  else Except.ok (none, none)

/-- Outcome of one run of the query function: `nullResult` — returned
`null` without touching the network; `thrown` — threw before any network
call; `call req` — invoked the simulation service with request `req`. -/
inductive QueryOutcome where
  | nullResult
  | thrown (msg : String)
  | call (req : ApiRequest)
deriving DecidableEq, Repr

/-- Embedding of the query function of `useSimulateLiquidity.ts` (lines
86-179), composed with `simulateLiquidityProvision`: the network call is
represented by the `ApiRequest` the ston API client would receive.  In
the `Balanced` branch the units are computed first, then
`if (!poolAddress) throw ...` fires BEFORE any service call, then an
empty unit pair returns `null`. -/
def liquidityQueryFn (p : LiquidityQueryParams) : QueryOutcome :=
  if isEnabled p = false then QueryOutcome.nullResult
  else if p.provisionType = ProvisionType.Balanced then
    match computeBalancedUnits p with
    | Except.error e => QueryOutcome.thrown e
    | Except.ok (ua, ub) =>
      if ¬ optStrTruthy p.poolAddress then
        QueryOutcome.thrown "Balanced provision requires an existing poolAddress"
      else if ¬ optStrTruthy ua ∧ ¬ optStrTruthy ub then
        QueryOutcome.nullResult
      else
        match simulateLiquidityProvision
          { provisionType := ProvisionType.Balanced,
            poolAddress := p.poolAddress, walletAddress := p.walletAddress,
            tokenA := p.tokenA.getD "", tokenB := p.tokenB.getD "",
            tokenAUnits := ua, tokenBUnits := ub,
            slippageTolerance := some "0.001" } with
        | Except.ok req => QueryOutcome.call req
        | Except.error e => QueryOutcome.thrown e
  else
    if p.debouncedAmountA = "" ∨ p.debouncedAmountB = "" then
      QueryOutcome.nullResult
    else
      match floatToBigNumber p.debouncedAmountA p.decimalsA,
          floatToBigNumber p.debouncedAmountB p.decimalsB with
      | some nA, some nB =>
        if p.provisionType = ProvisionType.Initial then
          match simulateLiquidityProvision
            { provisionType := ProvisionType.Initial, poolAddress := none,
              walletAddress := p.walletAddress,
              tokenA := p.tokenA.getD "", tokenB := p.tokenB.getD "",
              tokenAUnits := some (bigIntToString nA),
              tokenBUnits := some (bigIntToString nB),
              slippageTolerance := some "0.001" } with
          | Except.ok req => QueryOutcome.call req
          | Except.error e => QueryOutcome.thrown e
        else if ¬ optStrTruthy p.poolAddress then
          QueryOutcome.thrown "Arbitrary provision requires poolAddress"
        else
          match simulateLiquidityProvision
            { provisionType := ProvisionType.Arbitrary,
              poolAddress := p.poolAddress, walletAddress := p.walletAddress,
              tokenA := p.tokenA.getD "", tokenB := p.tokenB.getD "",
              tokenAUnits := some (bigIntToString nA),
              tokenBUnits := some (bigIntToString nB),
              slippageTolerance := some "0.001" } with
          | Except.ok req => QueryOutcome.call req
          | Except.error e => QueryOutcome.thrown e
      | _, _ => QueryOutcome.thrown "BigInt conversion failed"

/-- Does the outcome reach the simulation service? -/
def outcomeCallsService : QueryOutcome → Bool
  | QueryOutcome.call _ => true
  | _ => false

/-- C6: in `Balanced` mode with no known pool address (absent or empty,
i.e. falsy), the query function never reaches the simulation service —
the pool-address guard throws first — regardless of selected tokens,
amounts or wallet. -/
theorem balancedWithoutPool_noCall (p : LiquidityQueryParams)
    (hpt : p.provisionType = ProvisionType.Balanced)
    (hpool : optStrTruthy p.poolAddress = false) :
    outcomeCallsService (liquidityQueryFn p) = false := by
  rw [liquidityQueryFn]
  by_cases hen : isEnabled p = false
  · rw [if_pos hen]
    rfl
  · rw [if_neg hen, if_pos hpt]
    cases hcb : computeBalancedUnits p with
    | error e => rfl
    | ok units =>
      cases units with
      | mk ua ub =>
        simp only
        rw [if_pos (by simp [hpool])]
        rfl

/-- The spec's example input: TON/jetton pair selected, wallet connected,
`amountA = "5"`, `Balanced` mode, no pool address. -/
def c6Params : LiquidityQueryParams :=
  { walletAddress := some "EQwallet", tokenA := some "TON",
    tokenB := some "JETTON_X", debouncedAmountA := "5",
    debouncedAmountB := "", provisionType := ProvisionType.Balanced,
    poolAddress := none, decimalsA := 9, decimalsB := 9,
    debouncedActiveSide := some Side.A }

/-- Witness for `balancedWithoutPool_noCall`: both tokens selected, wallet
connected, `amountA = "5"`, `Balanced`, but `poolAddress = none` — no
call reaches the service (the guard throws). -/
theorem balancedWithoutPool_noCall_witness :
    (c6Params.provisionType = ProvisionType.Balanced ∧
      optStrTruthy c6Params.poolAddress = false) ∧
    outcomeCallsService (liquidityQueryFn c6Params) = false :=
  ⟨⟨by decide, by decide⟩,
    balancedWithoutPool_noCall c6Params (by decide) (by decide)⟩

/-! ## Swap status polling (`useSwapStatusQuery`, C9)

The query function sets `timeoutId = setTimeout(() => abortController.abort(),
SWAP_STATUS_TIMEOUT_MS)` — but `abortController.signal` is never passed to
`stonApiClient.getSwapStatus` and never consulted by the `do … while`
loop, so nothing observes the abort: the loop keeps fetching for as long
as the status is `NotFound`, no matter how much time has passed.  The
embedding below therefore has no timeout input at all — there is nothing
in the loop for a timeout to act on — and the two timing constants are
carried over verbatim. -/

/-- `SWAP_STATUS_REFETCH_INTERVAL_MS = 5_000` (the sleep between polls). -/
def SWAP_STATUS_REFETCH_INTERVAL_MS : Nat := 5000

/-- `SWAP_STATUS_TIMEOUT_MS = 300_000` (5 minutes — armed but never
observed). -/
def SWAP_STATUS_TIMEOUT_MS : Nat := 300000

/-- A swap status response: its `@type` tag (`"Found"` / `"NotFound"`) and
exit code. -/
structure SwapStatusResp where
  typ : String
  exitCode : String
deriving DecidableEq, Repr

/-- Embedding of the polling loop (`useSwapStatusQuery`, lines 47-59):
fetch response `i`; `break` on `"Found"`; otherwise sleep and loop again
while the status is `"NotFound"` (any other status exits the loop and is
returned).  `responses` is the sequence of service answers, `fuel` merely
bounds the recursion depth of the model; the returned index is the number
of polls performed before returning. -/
def pollSwapStatus (responses : Nat → SwapStatusResp) :
    Nat → Nat → Option (Nat × SwapStatusResp)
  | 0, _ => none
  | fuel + 1, i =>
    let s := responses i
    if s.typ = "Found" then some (i, s)
    else if s.typ = "NotFound" then pollSwapStatus responses fuel (i + 1)
    else some (i, s)

/-- A service that answers `NotFound` for the first 100 polls and `Found`
on poll 100 — i.e. the transaction's outcome only becomes visible after
100 × 5 s ≈ 8.3 minutes. -/
def lateFoundResponses : Nat → SwapStatusResp :=
  fun i => if i < 100 then ⟨"NotFound", ""⟩ else ⟨"Found", "swap_ok"⟩

/-- C9 (code evidence): the loop performs all 101 polls and returns the
`Found` status of poll 100, although the 100 sleeps alone amount to
500 000 ms > `SWAP_STATUS_TIMEOUT_MS` = 300 000 ms — polling does NOT
stop when the 5-minute timeout elapses, because the abort signal is never
checked; there is no timed-out outcome distinct from the final status. -/
theorem pollSwapStatus_ignores_timeout :
    pollSwapStatus lateFoundResponses 150 0
        = some (100, ⟨"Found", "swap_ok"⟩) ∧
    100 * SWAP_STATUS_REFETCH_INTERVAL_MS > SWAP_STATUS_TIMEOUT_MS := by
  refine ⟨by decide, by decide⟩
